import Mathlib

set_option maxRecDepth 8000

/-
  Verification development for the proxy-checker pipeline (src/cl.py).
  Pure Python string/control logic is embedded as executable Lean
  definitions; network interactions are abstracted as explicit inputs
  (response bodies, HTTP statuses, per-node service events), as the code
  branches only on those observations.  All string operations are modelled
  over ASCII, which covers every input the claims are about.
-/

/-! ### Python string primitives (ASCII model) -/

/-- Whitespace characters removed by the Python str.strip method. -/
def isPySpace (c : Char) : Bool :=
  c == ' ' || c == '\t' || c == '\n' || c == '\r'

/-- Python str.strip: drop leading and trailing whitespace. -/
def pyStrip (s : String) : String :=
  (((s.toList.dropWhile isPySpace).reverse.dropWhile isPySpace).reverse).asString

/-- Numeric value of a hexadecimal digit character (0 for non-digits). -/
def hexDigitVal (c : Char) : Nat :=
  let n := c.toNat
  if 48 ≤ n && n ≤ 57 then n - 48
  else if 65 ≤ n && n ≤ 70 then n - 55
  else if 97 ≤ n && n ≤ 102 then n - 87
  else 0

/-- Whether a character is a hexadecimal digit. -/
def isHexDigitChar (c : Char) : Bool :=
  let n := c.toNat
  (48 ≤ n && n ≤ 57) || (65 ≤ n && n ≤ 70) || (97 ≤ n && n ≤ 102)

/-- Uppercase hexadecimal digit character for a value below 16. -/
def hexDigitChar (n : Nat) : Char :=
  if n < 10 then Char.ofNat (48 + n) else Char.ofNat (55 + n)

/-- One pass of urllib.parse.unquote over ASCII text: each percent sign
followed by two hexadecimal digits is replaced by the encoded character. -/
def unquote1List : List Char → List Char
  | '%' :: a :: b :: rest =>
    if isHexDigitChar a && isHexDigitChar b then
      Char.ofNat (hexDigitVal a * 16 + hexDigitVal b) :: unquote1List rest
    else '%' :: unquote1List (a :: b :: rest)
  | c :: rest => c :: unquote1List rest
  | [] => []

/-- urllib.parse.unquote (single application), ASCII model. -/
def unquote (s : String) : String :=
  (unquote1List s.toList).asString

/-- The fixpoint loop of full_unquote (src/cl.py lines 67-71), with fuel.
Each application of unquote that changes the string shortens it by at
least two characters, so fuel equal to the string length is enough to
reach the fixpoint the Python while-loop computes. -/
def full_unquote_loop : Nat → String → String
  | 0, s => s
  | Nat.succ n, s =>
    let t := unquote s
    if t = s then s else full_unquote_loop n t

/-- full_unquote (src/cl.py lines 62-71): if the string has no percent
sign return it unchanged, otherwise unquote repeatedly to a fixpoint. -/
def full_unquote (s : String) : String :=
  if s.toList.contains '%' then full_unquote_loop s.toList.length s else s

/-- Characters urllib.parse.quote leaves unencoded with its default
safe characters: letters, digits, underscore, dot, dash, tilde, slash. -/
def quoteSafeChar (c : Char) : Bool :=
  c.isAlphanum || c == '_' || c == '.' || c == '-' || c == '~' || c == '/'

/-- Percent-encoding of one ASCII character, uppercase hex digits. -/
def percentEncodeChar (c : Char) : List Char :=
  ['%', hexDigitChar (c.toNat % 256 / 16), hexDigitChar (c.toNat % 16)]

/-- urllib.parse.quote with the default safe characters, ASCII model. -/
def quote (s : String) : String :=
  (s.toList.foldr
    (fun c acc => (if quoteSafeChar c then [c] else percentEncodeChar c) ++ acc)
    []).asString

/-- Whether a character is an uppercase ASCII letter, the class [A-Z]. -/
def isUpperAZ (c : Char) : Bool :=
  65 ≤ c.toNat && c.toNat ≤ 90

/-- The substitution re.sub applied to the display tag in src/cl.py line
103: if the tag ends in two colons followed by two uppercase letters,
that four-character suffix is removed, otherwise the tag is unchanged. -/
def strip_country_suffix (tag : String) : String :=
  match tag.toList.reverse with
  | y :: x :: c2 :: c1 :: rest =>
    if isUpperAZ y && isUpperAZ x && c2 == ':' && c1 == ':' then
      rest.reverse.asString
    else tag
  | _ => tag

/-- Whether the first list is a prefix of the second. -/
def beginsWith : List Char → List Char → Bool
  | [], _ => true
  | _ :: _, [] => false
  | a :: as, b :: bs => a == b && beginsWith as bs

/-- The update the vmess branch performs on the ps tag field of the
decoded payload (src/cl.py lines 88-90): the previous tag is fully
percent-decoded and the country suffix is appended.  Note that no
existing country suffix is removed on this branch. -/
def vmess_ps_retag (ps country_code : String) : String :=
  full_unquote ps ++ "::" ++ country_code

/-- get_ip_details_and_retag (src/cl.py lines 72-107).  The input URI is
stripped and the country code uppercased.  For a vmess URI the source
base64-decodes the JSON payload, rewrites its ps field by the action
modelled in vmess_ps_retag, and re-encodes; the payload codec itself is
outside this string model, so the branch is represented here by the
exception fallback the source uses when decoding fails (line 99), which
likewise appends the country code without removing a previous suffix.
No theorem below depends on the value of the vmess branch.  For a URI
with a fragment delimiter the tag is rewritten (lines 101-105); with no
delimiter one is created (lines 106-107). -/
def get_ip_details_and_retag (original_uri country_code : String) : String :=
  let uri := pyStrip original_uri
  let cc := (country_code.toList.map Char.toUpper).asString
  if beginsWith "vmess://".toList uri.toList then
    uri ++ "::" ++ cc
  else if uri.toList.contains '#' then
    let base_uri := (uri.toList.takeWhile (fun c => c != '#')).asString
    let tag := ((uri.toList.dropWhile (fun c => c != '#')).drop 1).asString
    let cleaned_tag := pyStrip (strip_country_suffix tag)
    let new_tag := cleaned_tag ++ "::" ++ cc
    base_uri ++ "#" ++ quote new_tag
  else
    uri ++ "#::" ++ cc

/-! ### Exit-IP discovery (get_public_ipv4) -/

/-- Whether a character is an ASCII decimal digit. -/
def isAsciiDigitChar (c : Char) : Bool :=
  48 ≤ c.toNat && c.toNat ≤ 57

/-- Split a character list at every occurrence of the separator. -/
def splitOnChar (sep : Char) : List Char → List (List Char)
  | [] => [[]]
  | c :: rest =>
    match splitOnChar sep rest with
    | [] => [[]]
    | g :: gs => if c == sep then [] :: g :: gs else (c :: g) :: gs

/-- The anchored regular expression of src/cl.py line 48, four groups of
one to three decimal digits separated by dots, as a whole-string match.
Octet values are not range-checked, exactly as in the source pattern. -/
def ipv4_pattern (s : String) : Bool :=
  let parts := splitOnChar '.' s.toList
  parts.length == 4 &&
    parts.all (fun p => decide (1 ≤ p.length) && decide (p.length ≤ 3)
      && p.all isAsciiDigitChar)

/-- get_public_ipv4 (src/cl.py lines 42-51).  The input list carries one
entry per echo service URL in order: none for a request exception or an
error status (raise_for_status), some body for a successful response.
The first stripped body matching the source pattern is returned. -/
def get_public_ipv4 : List (Option String) → Option String
  | [] => none
  | none :: rest => get_public_ipv4 rest
  | some body :: rest =>
    let ip := pyStrip body
    if ipv4_pattern ip then some ip else get_public_ipv4 rest

/-- The contribution of one echo-service response to exit-IP discovery:
its stripped body when that matches the source pattern. -/
def ip_candidate : Option String → Option String
  | none => none
  | some body =>
    let ip := pyStrip body
    if ipv4_pattern ip then some ip else none

/-- Decimal value of a digit list. -/
def digitsVal (p : List Char) : Nat :=
  p.foldl (fun a c => a * 10 + (c.toNat - 48)) 0

/-- Modelled from the spec: a syntactically valid IPv4 address in the
usual sense of the words of the spec, four dot-separated decimal octets
each between 0 and 255.  This is the refinement comparator for the
pattern the source actually checks. -/
def spec_valid_ipv4 (s : String) : Bool :=
  let parts := splitOnChar '.' s.toList
  parts.length == 4 &&
    parts.all (fun p => decide (1 ≤ p.length) && decide (p.length ≤ 3)
      && p.all isAsciiDigitChar && decide (digitsVal p ≤ 255))

/-- fetch_country_code (src/cl.py lines 54-60): the country field of the
geolocation response when present, the sentinel XX on a missing field or
any failure. -/
def fetch_country_code (resp : Option String) : String :=
  resp.getD "XX"

/-! ### Regional-reachability check (is_ip_accessible_from_iran_via_check_host)

The function branches only on how the check-host service answers, so its
interaction with one node is abstracted as one observed event: the
outcome of the initiation request, and, when that succeeds, the sequence
of polling observations before the bounded deadline cuts polling off
(the end of the list stands for the deadline). -/

/-- One observation of the polling loop (src/cl.py lines 158-185). -/
inductive PollEvent
  | rateLimited
  | httpError
  | emptyData
  | result (rttReported : Bool)
deriving DecidableEq

/-- Outcome of the initiation request for one node (lines 134-153). -/
inductive InitEvent
  | rateLimited
  | httpError
  | apiNotOk (limitMessage : Bool)
  | noRequestId
  | ok
deriving DecidableEq

/-- The full observed interaction with one check-host node: the
initiation outcome and, when initiation succeeded, the poll events. -/
structure NodeEvent where
  init : InitEvent
  polls : List PollEvent
deriving DecidableEq

/-- The two accumulator flags of the source function: whether some node
reported a round-trip time, and whether some node test completed
without a service error. -/
structure ChState where
  accessible : Bool
  completed : Bool
deriving DecidableEq

/-- The fixed Iranian vantage nodes (src/cl.py lines 37-39). -/
def CHECK_HOST_IRANIAN_NODES : List String :=
  ["ir1.node.check-host.net", "ir2.node.check-host.net", "ir3.node.check-host.net"]

/-- The polling loop for one node (lines 158-185).  A rate-limited poll
or a request exception while polling aborts the whole check with an
inconclusive result (modelled as none).  An empty body continues
polling.  A present node result marks the test completed, reports
success exactly when a round-trip time was parsed, and stops polling.
An exhausted event list is the polling deadline.  The returned flag is
node_ping_to_target_successful. -/
def runPolls : List PollEvent → ChState → Option (ChState × Bool)
  | [], st => some (st, false)
  | PollEvent.rateLimited :: _, _ => none
  | PollEvent.httpError :: _, _ => none
  | PollEvent.emptyData :: rest, st => runPolls rest st
  | PollEvent.result a :: _, st =>
    some (ChState.mk (st.accessible || a) true, a)

/-- Processing of one node (lines 130-193).  Initiation rate limiting is
inconclusive for the whole check; a request exception or generic error
during initiation is inconclusive only on the first node (node_idx 0)
and otherwise moves on; an API error body with a rate-limit message is
inconclusive, any other API error or a missing request id marks the test
completed and moves on; a successful initiation polls. -/
def runNode (isFirst : Bool) (e : NodeEvent) (st : ChState) :
    Option (ChState × Bool) :=
  match e.init with
  | InitEvent.rateLimited => none
  | InitEvent.httpError => if isFirst then none else some (st, false)
  | InitEvent.apiNotOk limitMessage =>
    if limitMessage then none else some (ChState.mk st.accessible true, false)
  | InitEvent.noRequestId => some (ChState.mk st.accessible true, false)
  | InitEvent.ok => runPolls e.polls st

/-- The loop over the vantage nodes (lines 130-193), one event per node
of CHECK_HOST_IRANIAN_NODES.  It stops early once a node reported a
round-trip time. -/
def runNodes : List NodeEvent → Nat → ChState → Option ChState
  | [], _, st => some st
  | e :: rest, idx, st =>
    if st.accessible then some st
    else
      match runNode (idx == 0) e st with
      | none => none
      | some (st2, success) =>
        if success then some st2 else runNodes rest (idx + 1) st2

/-- is_ip_accessible_from_iran_via_check_host (src/cl.py lines 110-202).
A missing or empty target IP short-circuits to some true (reported
inaccessible, lines 120-122).  Otherwise the verdict follows the two
accumulator flags: some false when a node reported a round-trip time
(accessible from Iran), some true when some test completed without a
service error, and none (inconclusive) otherwise. -/
def is_ip_accessible_from_iran_via_check_host (ip : Option String)
    (events : List NodeEvent) : Option Bool :=
  match ip with
  | none => some true
  | some s =>
    if s == "" then some true
    else
      match runNodes events 0 (ChState.mk false false) with
      | none => none
      | some st =>
        if st.accessible then some false
        else if st.completed then some true
        else none

/-- A poll event that does not report a round-trip time. -/
def pollEventNoRtt : PollEvent → Bool
  | PollEvent.result a => !a
  | _ => true

/-- A node interaction none of whose poll events reports a round-trip
time: rate limits, request errors, malformed or empty bodies, and
results without a parsed round-trip time. -/
def nodeEventNoRtt (e : NodeEvent) : Bool :=
  e.polls.all pollEventNoRtt

/-! ### Per-entry probe (check_one_proxy) -/

/-- Everything check_one_proxy observes from the network for one entry:
the initial connectivity probe (none for a network error or timeout,
some s for a response with final HTTP status s), the echo-service
responses, the check-host node events, and the geolocation country
field. -/
structure ProbeEnv where
  connectStatus : Option Nat
  echoResponses : List (Option String)
  iranEvents : List NodeEvent
  countryResp : Option String

/-- requests raise_for_status: an HTTPError is raised exactly for status
codes from 400 to 599. -/
def raise_for_status_fails (s : Nat) : Bool :=
  decide (400 ≤ s) && decide (s < 600)

/-- check_one_proxy (src/cl.py lines 205-235).  A network error,
timeout, or error status on the initial probe is caught by the outer
handler and discards the entry (none).  Otherwise the exit IP is
discovered; with the regional toggle on, a verdict of some false
(accessible from Iran) discards the entry and any other verdict keeps
it; the kept entry is retagged exactly when the location toggle is on. -/
def check_one_proxy (original_uri : String)
    (check_loc_enabled check_iran_enabled : Bool) (env : ProbeEnv) :
    Option String :=
  match env.connectStatus with
  | none => none
  | some s =>
    if raise_for_status_fails s then none
    else
      let exit_ip := get_public_ipv4 env.echoResponses
      let keepResult : Option String :=
        if check_loc_enabled then
          some (get_ip_details_and_retag original_uri
            (fetch_country_code env.countryResp))
        else some original_uri
      if check_iran_enabled then
        match is_ip_accessible_from_iran_via_check_host exit_ip
            env.iranEvents with
        | some false => none
        | _ => keepResult
      else keepResult

/-- The three reachability outcomes of the regional check as the spec
describes them, derived from the tri-state verdict of the source
function: a reported round-trip time means reachable from the region. -/
inductive RegionalOutcome
  | reachable
  | unreachable
  | inconclusive
deriving DecidableEq

/-- Translation of the source verdict (docstring of lines 113-118) into
the spec vocabulary: some false is reachable from Iran, some true is
unreachable, none is inconclusive. -/
def outcomeOfVerdict : Option Bool → RegionalOutcome
  | some false => RegionalOutcome.reachable
  | some true => RegionalOutcome.unreachable
  | none => RegionalOutcome.inconclusive

/-- The filter-and-retag decision table the code implements with the
regional filter enabled: a reachable entry is discarded, an unreachable
or inconclusive entry is kept, retagged exactly when the location
toggle is on. -/
def filterRetagDecision (loc : Bool) (o : RegionalOutcome)
    (orig tagged : String) : Option String :=
  match o with
  | RegionalOutcome.reachable => none
  | _ => if loc then some tagged else some orig

/-! ### Readiness poller and batch control (main, src/cl.py lines 315-357) -/

/-- One iteration of the readiness loop as observed from outside: the
engine liveness check and the set of local ports accepting a connection
during that iteration. -/
structure PollIter where
  engineRunning : Bool
  portsUp : List Nat
deriving DecidableEq

/-- How the polling loop of lines 322-342 ends: an observed engine
crash (break, line 326), all ports ready (break, line 336), or budget
exhaustion with the final liveness re-check of line 339 deciding
between the two raised errors. -/
inductive PollOutcome
  | crashed (ready : List Nat)
  | allReady (ready : List Nat)
  | timeoutRunning (ready : List Nat)
  | timeoutCrashed (ready : List Nat)
deriving DecidableEq

/-- One connection sweep (lines 327-333): every expected port not yet
ready that accepts a connection this iteration becomes ready. -/
def pollStep (expected ready : List Nat) (it : PollIter) : List Nat :=
  ready ++ expected.filter (fun p => !ready.contains p && it.portsUp.contains p)

/-- The readiness loop (lines 322-342).  The iteration list carries one
entry per loop iteration (the source budget is 40); exhausting it is
the budget running out, after which the liveness re-check of line 339
picks the outcome.  ready_ports only ever gains members of
expected_ports, so the source set equality is membership of every
expected port. -/
def pollLoop (expected : List Nat) (finalRunning : Bool) :
    List PollIter → List Nat → PollOutcome
  | [], ready =>
    if finalRunning then PollOutcome.timeoutRunning ready
    else PollOutcome.timeoutCrashed ready
  | it :: rest, ready =>
    if !it.engineRunning then PollOutcome.crashed ready
    else
      let ready2 := pollStep expected ready it
      if expected.all (fun p => ready2.contains p) then
        PollOutcome.allReady ready2
      else pollLoop expected finalRunning rest ready2

/-- What main does with the poll outcome (lines 338-357): both timeout
outcomes raise, which the batch handler turns into skipping the whole
batch (Except.error); on the crash break and on full readiness the
batch proceeds and every entry of items_to_test_in_batch is submitted
to the pool (line 349), with no filtering by readiness. -/
def batchAfterPoll {α : Type} (items : List α) :
    PollOutcome → Except String (List α)
  | PollOutcome.crashed _ => Except.ok items
  | PollOutcome.allReady _ => Except.ok items
  | PollOutcome.timeoutRunning _ =>
    Except.error "Timeout: Not all ports became ready."
  | PollOutcome.timeoutCrashed _ =>
    Except.error "Xray crashed during port check."

/-! ### Port allocation (src/cl.py lines 282-308 and 359-368) -/

/-- The base of the local port range (line 282). -/
def base_port_start : Nat := 20800

/-- The Xray batch capacity (line 286). -/
def BATCH_SIZE : Nat := 50

/-- The local port of the entry at offset idx inside the Xray batch
starting at global index i (line 297). -/
def xray_local_port (i idx : Nat) : Nat :=
  base_port_start + i + idx

/-- The local port of the i-th Hysteria entry, allocated above the
whole Xray range (lines 364-367). -/
def hysteria_local_port (num_xray i : Nat) : Nat :=
  base_port_start + num_xray + i

/-! ### Parsing output and deduplication (src/cl.py lines 246-260) -/

/-- The parsed parameters of one descriptor, with the fields the
identity key of line 256 reads.  Credential fields a protocol does not
use are none. -/
structure ProxyParams where
  protocol : String
  address : String
  port : Nat
  id : Option String
  password : Option String
  hy2_password : Option String
  wg_secret_key : Option String
  display_tag : String
deriving DecidableEq

/-- One catalog entry: the parsed parameters together with the raw
descriptor line (the dicts built at lines 247-249). -/
structure CatalogEntry where
  params : ProxyParams
  original_uri : String
deriving DecidableEq

/-- The identity-key tuple of line 256, as a record with one field per
tuple component. -/
structure IdentityKey where
  protocol : String
  address : String
  port : Nat
  id : Option String
  password : Option String
  hy2_password : Option String
  wg_secret_key : Option String
deriving DecidableEq

/-- The identity key of line 256. -/
def identity_key (p : ProxyParams) : IdentityKey :=
  IdentityKey.mk p.protocol p.address p.port p.id p.password p.hy2_password
    p.wg_secret_key

/-- The deduplication loop of lines 253-258: a dict keyed by the
identity key, inserting only first-seen keys, read back in insertion
order.  The seen list is the set of keys already in the dict. -/
def dedup_loop : List CatalogEntry → List IdentityKey → List CatalogEntry
  | [], _ => []
  | it :: rest, seen =>
    if identity_key it.params ∈ seen then dedup_loop rest seen
    else it :: dedup_loop rest (identity_key it.params :: seen)

/-- Deduplication as main performs it (lines 253-259). -/
def dedup_items (l : List CatalogEntry) : List CatalogEntry :=
  dedup_loop l []

/-! ## Theorems -/

/-! ### Deduplication lemmas -/

theorem dedup_loop_length_le (l : List CatalogEntry) :
    ∀ seen, (dedup_loop l seen).length ≤ l.length := by
  induction l with
  | nil => intro seen; simp [dedup_loop]
  | cons a rest ih =>
    intro seen
    by_cases ha : identity_key a.params ∈ seen
    · simp only [dedup_loop, if_pos ha]
      exact Nat.le_succ_of_le (ih seen)
    · simp only [dedup_loop, if_neg ha, List.length_cons]
      exact Nat.succ_le_succ (ih _)

theorem dedup_loop_mem (l : List CatalogEntry) :
    ∀ seen x, x ∈ dedup_loop l seen →
      identity_key x.params ∉ seen ∧
        List.find?
          (fun y : CatalogEntry =>
            decide (identity_key y.params = identity_key x.params))
          l = some x := by
  induction l with
  | nil => intro seen x hx; simp [dedup_loop] at hx
  | cons a rest ih =>
    intro seen x hx
    by_cases ha : identity_key a.params ∈ seen
    · rw [dedup_loop, if_pos ha] at hx
      obtain ⟨h1, h2⟩ := ih seen x hx
      have hne : identity_key a.params ≠ identity_key x.params := by
        intro h; exact h1 (h ▸ ha)
      refine ⟨h1, ?_⟩
      rw [List.find?_cons_of_neg _ (by simpa using hne), h2]
    · rw [dedup_loop, if_neg ha] at hx
      rcases List.mem_cons.mp hx with hx | hx
      · subst hx
        refine ⟨ha, ?_⟩
        rw [List.find?_cons_of_pos _ (by simp)]
      · obtain ⟨h1, h2⟩ := ih _ x hx
        have hne : identity_key a.params ≠ identity_key x.params :=
          fun h => h1 (List.mem_cons.mpr (Or.inl h.symm))
        refine ⟨fun h => h1 (List.mem_cons.mpr (Or.inr h)), ?_⟩
        rw [List.find?_cons_of_neg _ (by simpa using hne), h2]

theorem dedup_loop_pairwise (l : List CatalogEntry) :
    ∀ seen, List.Pairwise
      (fun a b => identity_key a.params ≠ identity_key b.params)
      (dedup_loop l seen) := by
  induction l with
  | nil => intro seen; simp [dedup_loop]
  | cons a rest ih =>
    intro seen
    by_cases ha : identity_key a.params ∈ seen
    · rw [dedup_loop, if_pos ha]; exact ih seen
    · rw [dedup_loop, if_neg ha]
      refine List.pairwise_cons.mpr ⟨?_, ih _⟩
      intro b hb
      have := (dedup_loop_mem rest _ b hb).1
      exact fun h => this (List.mem_cons.mpr (Or.inl h.symm))

theorem dedup_loop_sublist (l : List CatalogEntry) :
    ∀ seen, List.Sublist (dedup_loop l seen) l := by
  induction l with
  | nil => intro seen; simp [dedup_loop]
  | cons a rest ih =>
    intro seen
    by_cases ha : identity_key a.params ∈ seen
    · rw [dedup_loop, if_pos ha]
      exact List.Sublist.cons a (ih seen)
    · rw [dedup_loop, if_neg ha]
      exact List.Sublist.cons₂ a (ih _)

theorem dedup_loop_fixed (l : List CatalogEntry) :
    ∀ seen, (∀ x ∈ l, identity_key x.params ∉ seen) →
      List.Pairwise (fun a b => identity_key a.params ≠ identity_key b.params) l →
      dedup_loop l seen = l := by
  induction l with
  | nil => intro seen _ _; rfl
  | cons a rest ih =>
    intro seen hseen hpw
    have ha : identity_key a.params ∉ seen := hseen a (List.mem_cons_self a rest)
    rw [dedup_loop, if_neg ha]
    obtain ⟨hhead, htail⟩ := List.pairwise_cons.mp hpw
    congr 1
    refine ih _ ?_ htail
    intro x hx
    intro hmem
    rcases List.mem_cons.mp hmem with h | h
    · exact hhead x hx h.symm
    · exact hseen x (List.mem_cons.mpr (Or.inr hx)) h

/-! ### Claim C5 -/

/-- Claim C5: deduplication keys entries by (protocol, address, port,
credential fields), and: it is idempotent, the output is never longer
than the input, the output has pairwise distinct identity keys, output
order is a subsequence of input order, and every output entry is the
first input entry carrying its identity key. -/
theorem c5_dedup_properties (l : List CatalogEntry) :
    dedup_items (dedup_items l) = dedup_items l ∧
    (dedup_items l).length ≤ l.length ∧
    List.Pairwise (fun a b => identity_key a.params ≠ identity_key b.params)
      (dedup_items l) ∧
    List.Sublist (dedup_items l) l ∧
    (∀ x ∈ dedup_items l,
      List.find?
        (fun y : CatalogEntry =>
          decide (identity_key y.params = identity_key x.params))
        l = some x) := by
  refine ⟨?_, dedup_loop_length_le l [], dedup_loop_pairwise l [],
    dedup_loop_sublist l [], fun x hx => (dedup_loop_mem l [] x hx).2⟩
  exact dedup_loop_fixed (dedup_items l) []
    (fun x _ h => by simp at h) (dedup_loop_pairwise l [])

/-- Witness for C5 at a concrete two-entry input sharing one identity
key: the surviving entry is the first-seen one. -/
theorem c5_dedup_properties_witness :
    List.find?
      (fun y : CatalogEntry => decide (identity_key y.params =
        identity_key (CatalogEntry.mk
          (ProxyParams.mk "vless" "h" 443 (some "i") none none none "A") "u1").params))
      [CatalogEntry.mk (ProxyParams.mk "vless" "h" 443 (some "i") none none none "A") "u1",
        CatalogEntry.mk (ProxyParams.mk "vless" "h" 443 (some "i") none none none "B") "u2"]
      = some (CatalogEntry.mk
          (ProxyParams.mk "vless" "h" 443 (some "i") none none none "A") "u1") :=
  (c5_dedup_properties
    [CatalogEntry.mk (ProxyParams.mk "vless" "h" 443 (some "i") none none none "A") "u1",
      CatalogEntry.mk (ProxyParams.mk "vless" "h" 443 (some "i") none none none "B") "u2"]).2.2.2.2
    (CatalogEntry.mk (ProxyParams.mk "vless" "h" 443 (some "i") none none none "A") "u1")
    (by decide)

/-! ### Claim C6 -/

/-- Claim C6: the local port of a batch entry is the base port plus the
batch offset plus the index inside the batch; ports are pairwise
distinct inside a batch, across distinct Xray batches, inside the
Hysteria group, and between the Xray range and the Hysteria range. -/
theorem c6_port_allocation :
    (∀ i idx1 idx2, idx1 ≠ idx2 →
      xray_local_port i idx1 ≠ xray_local_port i idx2) ∧
    (∀ i1 idx1 i2 idx2, i1 % BATCH_SIZE = 0 → i2 % BATCH_SIZE = 0 →
      idx1 < BATCH_SIZE → idx2 < BATCH_SIZE → i1 ≠ i2 →
      xray_local_port i1 idx1 ≠ xray_local_port i2 idx2) ∧
    (∀ n i idx j, i + idx < n →
      xray_local_port i idx ≠ hysteria_local_port n j) ∧
    (∀ n i j, i ≠ j →
      hysteria_local_port n i ≠ hysteria_local_port n j) := by
  refine ⟨?_, ?_, ?_, ?_⟩ <;>
    · intros
      simp only [xray_local_port, hysteria_local_port, base_port_start,
        BATCH_SIZE] at *
      omega

/-- Witness for C6: the first ports of two consecutive Xray batches are
distinct. -/
theorem c6_port_allocation_witness :
    xray_local_port 0 0 ≠ xray_local_port 50 0 :=
  c6_port_allocation.2.1 0 0 50 0 (by decide) (by decide) (by decide)
    (by decide) (by decide)

/-! ### Claim C9 -/

/-- Claim C9, counterexample to the claim as stated: the string of four
999 octets is not a syntactically valid IPv4 address, yet exit-IP
discovery returns it, because the source pattern does not range-check
octets. -/
theorem c9_exit_ip_counterexample :
    get_public_ipv4 [some "999.999.999.999"] = some "999.999.999.999" ∧
      spec_valid_ipv4 "999.999.999.999" = false := by
  exact ⟨rfl, rfl⟩

/-- Claim C9 as amended: exit-IP discovery walks the echo services in
order and returns the first stripped response body matching the
dotted-quad digit pattern of the source (octet values not
range-checked); when every service fails or no body matches, the exit
IP is none. -/
theorem c9_exit_ip_amended (rs : List (Option String)) :
    get_public_ipv4 rs = (rs.filterMap ip_candidate).head? := by
  induction rs with
  | nil => rfl
  | cons r rest ih =>
    cases r with
    | none => simpa [get_public_ipv4, ip_candidate] using ih
    | some body =>
      by_cases h : ipv4_pattern (pyStrip body) = true
      · simp [get_public_ipv4, ip_candidate, h]
      · simp only [Bool.not_eq_true] at h
        simpa [get_public_ipv4, ip_candidate, h] using ih

/-! ### Claim C2 -/

/-- Claim C2: the code bug at a concrete input.  Retagging the plain
descriptor with DE and then FR leaves the tag carrying the DE suffix in
percent-encoded form: the first retag percent-encodes the colons, so
the suffix-removing substitution of the second retag cannot match its
own output, and the decoded tag reads A::DE::FR instead of A::FR.  The
vmess ps-field action appends without removing a suffix at all. -/
theorem c2_retag_round_trip_bug :
    get_ip_details_and_retag
        (get_ip_details_and_retag "vless://id@host:443#A" "DE") "FR"
      = "vless://id@host:443#A%253A%253ADE%3A%3AFR" ∧
    full_unquote "A%253A%253ADE%3A%3AFR" = "A::DE::FR" ∧
    full_unquote "A%253A%253ADE%3A%3AFR" ≠ "A::FR" ∧
    vmess_ps_retag (vmess_ps_retag "A" "DE") "FR" = "A::DE::FR" := by
  refine ⟨rfl, rfl, ?_, rfl⟩
  decide

/-! ### Claim C8 -/

/-- Claim C8, counterexample to the claim as stated: a 304 response is
not a 2xx status, yet the probe does not yield connect-failed, because
raise_for_status only raises for statuses from 400 to 599; the entry is
kept. -/
theorem c8_connect_failed_counterexample :
    ¬(200 ≤ 304 ∧ 304 < 300) ∧
      raise_for_status_fails 304 = false ∧
      check_one_proxy "u" false false (ProbeEnv.mk (some 304) [] [] none)
        = some "u" := by
  exact ⟨by decide, rfl, rfl⟩

/-- Claim C8 as amended: the initial connectivity probe discards the
entry, running none of its remaining checks, whenever it hits a network
error or timeout, or any HTTP status from 400 to 599; the result is
none regardless of every other observation in the environment. -/
theorem c8_connect_failed_amended (uri : String) (loc iran : Bool)
    (env : ProbeEnv)
    (h : env.connectStatus = none ∨
      ∃ s, env.connectStatus = some s ∧ raise_for_status_fails s = true) :
    check_one_proxy uri loc iran env = none := by
  rcases h with h | ⟨s, hs, hf⟩
  · unfold check_one_proxy
    rw [h]
  · unfold check_one_proxy
    rw [hs]
    simp [hf]

/-- Witness for C8 at a concrete 404 environment. -/
theorem c8_connect_failed_amended_witness :
    check_one_proxy "u" true true
      (ProbeEnv.mk (some 404) [some "1.2.3.4"] [] (some "DE")) = none :=
  c8_connect_failed_amended "u" true true
    (ProbeEnv.mk (some 404) [some "1.2.3.4"] [] (some "DE"))
    (Or.inr ⟨404, rfl, rfl⟩)

/-! ### Claim C1 -/

/-- Claim C1, counterexample to the claim as stated: with the regional
filter on, an entry whose exit IP got a round-trip time from an Iranian
node (outcome reachable) is discarded, and an entry whose check
completed without any round-trip time (outcome unreachable) is kept —
the opposite of the table rows the claim quotes. -/
theorem c1_filter_table_counterexample :
    outcomeOfVerdict (is_ip_accessible_from_iran_via_check_host
        (some "1.2.3.4") [NodeEvent.mk InitEvent.ok [PollEvent.result true]])
      = RegionalOutcome.reachable ∧
    check_one_proxy "u" false true
        (ProbeEnv.mk (some 204) [some "1.2.3.4"]
          [NodeEvent.mk InitEvent.ok [PollEvent.result true]] none)
      = none ∧
    outcomeOfVerdict (is_ip_accessible_from_iran_via_check_host
        (some "1.2.3.4") [NodeEvent.mk InitEvent.ok [PollEvent.result false]])
      = RegionalOutcome.unreachable ∧
    check_one_proxy "u" false true
        (ProbeEnv.mk (some 204) [some "1.2.3.4"]
          [NodeEvent.mk InitEvent.ok [PollEvent.result false]] none)
      = some "u" := by
  exact ⟨rfl, rfl, rfl, rfl⟩

/-- Claim C1 as amended: with the regional filter enabled and the
connectivity probe successful, the per-entry decision is exactly the
table with the reachability column inverted: a reachable outcome
discards the entry, an unreachable or inconclusive outcome keeps it,
retagged with its country code exactly when the location toggle is on. -/
theorem c1_filter_retag_amended (uri : String) (loc : Bool) (env : ProbeEnv)
    (s : Nat) (hs : env.connectStatus = some s)
    (hok : raise_for_status_fails s = false) :
    check_one_proxy uri loc true env =
      filterRetagDecision loc
        (outcomeOfVerdict (is_ip_accessible_from_iran_via_check_host
          (get_public_ipv4 env.echoResponses) env.iranEvents))
        uri
        (get_ip_details_and_retag uri (fetch_country_code env.countryResp)) := by
  unfold check_one_proxy
  rw [hs]
  simp only [hok, Bool.false_eq_true, if_false]
  cases hv : is_ip_accessible_from_iran_via_check_host
      (get_public_ipv4 env.echoResponses) env.iranEvents with
  | none => simp [hv, outcomeOfVerdict, filterRetagDecision]
  | some b =>
    cases b <;> simp [hv, outcomeOfVerdict, filterRetagDecision]

/-- Witness for C1 at a concrete environment with an inconclusive
regional check and the location toggle off: the entry is kept
unchanged. -/
theorem c1_filter_retag_amended_witness :
    check_one_proxy "u" false true
      (ProbeEnv.mk (some 204) [some "1.2.3.4"]
        [NodeEvent.mk InitEvent.rateLimited []] none) = some "u" := by
  have h := c1_filter_retag_amended "u" false
    (ProbeEnv.mk (some 204) [some "1.2.3.4"]
      [NodeEvent.mk InitEvent.rateLimited []] none) 204 rfl rfl
  rw [h]
  rfl

/-! ### Claim C7 -/

theorem runPolls_no_rtt (polls : List PollEvent) :
    ∀ st st2 b, polls.all pollEventNoRtt = true → st.accessible = false →
      runPolls polls st = some (st2, b) →
      st2.accessible = false ∧ b = false := by
  induction polls with
  | nil =>
    intro st st2 b _ ha h
    have h2 : (st, false) = (st2, b) := by simpa [runPolls] using h
    obtain ⟨h3, h4⟩ := Prod.mk.injEq .. ▸ h2
    exact ⟨h3 ▸ ha, h4.symm ▸ rfl⟩
  | cons e rest ih =>
    intro st st2 b hall ha h
    rw [List.all_cons, Bool.and_eq_true] at hall
    obtain ⟨he, hrest⟩ := hall
    cases e with
    | rateLimited => simp [runPolls] at h
    | httpError => simp [runPolls] at h
    | emptyData => exact ih st st2 b hrest ha (by simpa [runPolls] using h)
    | result a =>
      have ha2 : a = false := by simpa [pollEventNoRtt] using he
      subst ha2
      have h2 : (ChState.mk (st.accessible || false) true, false) = (st2, b) := by
        simpa [runPolls] using h
      obtain ⟨h3, h4⟩ := Prod.mk.injEq .. ▸ h2
      refine ⟨?_, h4.symm⟩
      rw [← h3]
      simp [ha]

theorem runNode_no_rtt (isFirst : Bool) (e : NodeEvent) (st st2 : ChState)
    (b : Bool) (he : nodeEventNoRtt e = true) (ha : st.accessible = false)
    (h : runNode isFirst e st = some (st2, b)) :
    st2.accessible = false ∧ b = false := by
  obtain ⟨init, polls⟩ := e
  cases init with
  | rateLimited => simp [runNode] at h
  | httpError =>
    cases isFirst with
    | true => simp [runNode] at h
    | false =>
      have h2 : (st, false) = (st2, b) := by simpa [runNode] using h
      obtain ⟨h3, h4⟩ := Prod.mk.injEq .. ▸ h2
      exact ⟨h3 ▸ ha, h4.symm⟩
  | apiNotOk lm =>
    cases lm with
    | true => simp [runNode] at h
    | false =>
      have h2 : (ChState.mk st.accessible true, false) = (st2, b) := by
        simpa [runNode] using h
      obtain ⟨h3, h4⟩ := Prod.mk.injEq .. ▸ h2
      refine ⟨?_, h4.symm⟩
      rw [← h3]
      simpa using ha
  | noRequestId =>
    have h2 : (ChState.mk st.accessible true, false) = (st2, b) := by
      simpa [runNode] using h
    obtain ⟨h3, h4⟩ := Prod.mk.injEq .. ▸ h2
    refine ⟨?_, h4.symm⟩
    rw [← h3]
    simpa using ha
  | ok =>
    exact runPolls_no_rtt polls st st2 b (by simpa [nodeEventNoRtt] using he)
      ha (by simpa [runNode] using h)

theorem runNodes_no_rtt (events : List NodeEvent) :
    ∀ idx st st2, events.all nodeEventNoRtt = true → st.accessible = false →
      runNodes events idx st = some st2 → st2.accessible = false := by
  induction events with
  | nil =>
    intro idx st st2 _ ha h
    have h2 : st = st2 := by simpa [runNodes] using h
    exact h2 ▸ ha
  | cons e rest ih =>
    intro idx st st2 hall ha h
    rw [List.all_cons, Bool.and_eq_true] at hall
    obtain ⟨he, hrest⟩ := hall
    rw [runNodes, if_neg (by simp [ha])] at h
    cases hrn : runNode (idx == 0) e st with
    | none => rw [hrn] at h; cases h
    | some p =>
      obtain ⟨st3, success⟩ := p
      obtain ⟨hacc3, hsucc⟩ :=
        runNode_no_rtt (idx == 0) e st st3 success he ha hrn
      rw [hrn, hsucc] at h
      simp only [Bool.false_eq_true, if_false] at h
      exact ih (idx + 1) st3 st2 hrest hacc3 h

/-- When no node reports a round-trip time, the regional check never
returns the accessible verdict. -/
theorem is_ip_check_no_rtt_not_accessible (ip : Option String)
    (events : List NodeEvent) (hall : events.all nodeEventNoRtt = true) :
    is_ip_accessible_from_iran_via_check_host ip events ≠ some false := by
  cases ip with
  | none => simp [is_ip_accessible_from_iran_via_check_host]
  | some s =>
    unfold is_ip_accessible_from_iran_via_check_host
    by_cases hs : (s == "") = true
    · simp [hs]
    · rw [Bool.not_eq_true] at hs
      cases hrn : runNodes events 0 (ChState.mk false false) with
      | none => simp [hs, hrn]
      | some st =>
        have hacc : st.accessible = false :=
          runNodes_no_rtt events 0 (ChState.mk false false) st hall rfl hrn
        cases hc : st.completed <;> simp [hs, hrn, hacc, hc]

/-- Claim C7: whenever the regional-reachability service only
rate-limits, errors, or answers with bodies that carry no parsed
round-trip time — in particular whenever the verdict is inconclusive —
the probed entry is not discarded: the per-entry check still returns a
kept descriptor, so service trouble is never batch-fatal. -/
theorem c7_service_trouble_keeps_entry (uri : String) (loc : Bool)
    (env : ProbeEnv) (s : Nat) (hs : env.connectStatus = some s)
    (hok : raise_for_status_fails s = false)
    (hall : env.iranEvents.all nodeEventNoRtt = true) :
    (check_one_proxy uri loc true env).isSome = true := by
  unfold check_one_proxy
  rw [hs]
  simp only [hok, Bool.false_eq_true, if_false]
  have hne := is_ip_check_no_rtt_not_accessible
    (get_public_ipv4 env.echoResponses) env.iranEvents hall
  cases hv : is_ip_accessible_from_iran_via_check_host
      (get_public_ipv4 env.echoResponses) env.iranEvents with
  | none => cases loc <;> simp [hv]
  | some b =>
    cases b with
    | false => exact absurd hv hne
    | true => cases loc <;> simp [hv]

/-- Witness for C7: a rate-limited first node makes the verdict
inconclusive, and the entry is kept. -/
theorem c7_service_trouble_keeps_entry_witness :
    (check_one_proxy "u" false true
      (ProbeEnv.mk (some 204) [some "1.2.3.4"]
        [NodeEvent.mk InitEvent.rateLimited []] none)).isSome = true :=
  c7_service_trouble_keeps_entry "u" false
    (ProbeEnv.mk (some 204) [some "1.2.3.4"]
      [NodeEvent.mk InitEvent.rateLimited []] none) 204 rfl rfl (by decide)

/-! ### Claim C10 -/

/-- Claim C10: when exit-IP discovery fails, the regional check
short-circuits on its missing-target guard and reports the entry
inaccessible from the region (some true), so with the regional filter
enabled the entry is kept, not discarded and not marked inconclusive. -/
theorem c10_no_exit_ip_keeps_entry (uri : String) (loc : Bool)
    (env : ProbeEnv) (s : Nat) (hs : env.connectStatus = some s)
    (hok : raise_for_status_fails s = false)
    (hip : get_public_ipv4 env.echoResponses = none) :
    is_ip_accessible_from_iran_via_check_host
        (get_public_ipv4 env.echoResponses) env.iranEvents = some true ∧
      (check_one_proxy uri loc true env).isSome = true := by
  have h1 : is_ip_accessible_from_iran_via_check_host
      (get_public_ipv4 env.echoResponses) env.iranEvents = some true := by
    rw [hip]
    rfl
  refine ⟨h1, ?_⟩
  unfold check_one_proxy
  rw [hs]
  simp only [hok, Bool.false_eq_true, if_false]
  cases loc <;> simp [h1]

/-- Witness for C10: with every echo service failing, the entry passes
the regional filter. -/
theorem c10_no_exit_ip_keeps_entry_witness :
    is_ip_accessible_from_iran_via_check_host
        (get_public_ipv4 ([none] : List (Option String))) [] = some true ∧
      (check_one_proxy "u" true true
        (ProbeEnv.mk (some 204) [none] [] (some "DE"))).isSome = true :=
  c10_no_exit_ip_keeps_entry "u" true
    (ProbeEnv.mk (some 204) [none] [] (some "DE")) 204 rfl rfl rfl

/-! ### Claim C3 -/

/-- Claim C3, counterexample to the claim as stated: the iteration
budget (40 rounds) runs out with the engine alive and one of two ports
ready, and instead of proceeding with the ready entry the code raises
its timeout error, so the whole batch is abandoned. -/
theorem c3_partial_readiness_counterexample :
    pollLoop [20800, 20801] true
        (List.replicate 40 (PollIter.mk true [20800])) []
      = PollOutcome.timeoutRunning [20800] ∧
    batchAfterPoll (["a", "b"] : List String)
        (PollOutcome.timeoutRunning [20800])
      = Except.error "Timeout: Not all ports became ready." := by
  exact ⟨rfl, rfl⟩

/-- Unfolding of one poll iteration on which the engine is running. -/
theorem pollLoop_cons_running (expected : List Nat) (fin : Bool)
    (it : PollIter) (rest : List PollIter) (ready : List Nat)
    (hr : it.engineRunning = true) :
    pollLoop expected fin (it :: rest) ready =
      if (expected.all fun p => (pollStep expected ready it).contains p) then
        PollOutcome.allReady (pollStep expected ready it)
      else pollLoop expected fin rest (pollStep expected ready it) := by
  rw [pollLoop, hr]
  rfl

/-- Claim C3 as amended: while the engine is observed running on every
iteration, the poll loop can only end with all ports ready or with the
timeout error that abandons the whole batch — exhausting the budget
with only some ports ready never proceeds with partial readiness.  The
proceed-anyway path of the source exists only behind an observed engine
crash, and it submits every entry of the batch. -/
theorem c3_partial_readiness_amended (expected : List Nat)
    (iters : List PollIter) (ready : List Nat) (items : List String)
    (hrun : ∀ it ∈ iters, it.engineRunning = true) :
    (∃ r, pollLoop expected true iters ready = PollOutcome.allReady r) ∨
    (∃ r, pollLoop expected true iters ready = PollOutcome.timeoutRunning r ∧
      batchAfterPoll items (PollOutcome.timeoutRunning r)
        = Except.error "Timeout: Not all ports became ready.") := by
  revert hrun
  induction iters generalizing ready with
  | nil => exact fun _ => Or.inr ⟨ready, rfl, rfl⟩
  | cons it rest ih =>
    intro hrun
    have hr : it.engineRunning = true := hrun it (List.mem_cons_self it rest)
    have hnr : ∀ x ∈ rest, x.engineRunning = true :=
      fun x hx => hrun x (List.mem_cons_of_mem it hx)
    by_cases hall :
        (expected.all fun p => (pollStep expected ready it).contains p) = true
    · refine Or.inl ⟨pollStep expected ready it, ?_⟩
      rw [pollLoop_cons_running expected true it rest ready hr, if_pos hall]
    · have hstep : pollLoop expected true (it :: rest) ready
          = pollLoop expected true rest (pollStep expected ready it) := by
        rw [pollLoop_cons_running expected true it rest ready hr, if_neg hall]
      rw [hstep]
      exact ih (pollStep expected ready it) hnr

/-- Witness for C3: one engine-alive iteration that readies nothing, so
the budget runs out and the outcome is one of the two allowed ends. -/
theorem c3_partial_readiness_amended_witness :
    (∃ r, pollLoop [1] true [PollIter.mk true []] []
      = PollOutcome.allReady r) ∨
    (∃ r, pollLoop [1] true [PollIter.mk true []] []
        = PollOutcome.timeoutRunning r ∧
      batchAfterPoll (["a"] : List String) (PollOutcome.timeoutRunning r)
        = Except.error "Timeout: Not all ports became ready.") :=
  c3_partial_readiness_amended [1] [PollIter.mk true []] [] ["a"] (by decide)

/-! ### Claim C4 -/

/-- Claim C4, counterexample to the claim as stated: the engine crash
is observed on the first iteration, before port 2 ever became ready,
yet the batch proceeds and the entry listening on port 2 is submitted
to the prober along with everything else. -/
theorem c4_ready_only_counterexample :
    pollLoop [1, 2] true [PollIter.mk false []] [] = PollOutcome.crashed [] ∧
    batchAfterPoll [(1, "e1"), (2, "e2")] (PollOutcome.crashed [])
      = Except.ok [(1, "e1"), (2, "e2")] ∧
    (2, "e2") ∈ [(1, "e1"), (2, "e2")] ∧
    (2 : Nat) ∉ ([] : List Nat) := by
  exact ⟨rfl, rfl, by decide, by decide⟩

/-- Claim C4 as amended: submission is never filtered by readiness —
whenever the batch proceeds to probing at all, the submitted list is
exactly items_to_test_in_batch, the whole batch, whatever the set of
ready ports. -/
theorem c4_submission_unfiltered {α : Type} (items : List α)
    (res : PollOutcome) (l : List α)
    (h : batchAfterPoll items res = Except.ok l) : l = items := by
  cases res with
  | crashed r => exact (Except.ok.inj h).symm
  | allReady r => exact (Except.ok.inj h).symm
  | timeoutRunning r => cases h
  | timeoutCrashed r => cases h

/-- Witness for C4 on the crash path at a concrete input. -/
theorem c4_submission_unfiltered_witness :
    (["e1", "e2"] : List String) = ["e1", "e2"] :=
  c4_submission_unfiltered ["e1", "e2"] (PollOutcome.crashed []) ["e1", "e2"]
    rfl

